import Mathlib

/-!
Verification of the rideshare-driver mobile client.

JavaScript strings are embedded as `List Char` (one element per UTF-16 code
unit; every character appearing in the delimiters and keys of this code lies
in the basic multilingual plane, where code units and code points coincide).
`String.prototype.indexOf` returning `-1` is embedded as `Option Nat`
returning `none`.  Nullable values are `Option`, and JavaScript truthiness of
a nullable string (`null` and the empty string are falsy) is made explicit.
-/

/-- Embedding of `String.prototype.indexOf`, accumulator form: `base` is the
index of the head of the remaining list inside the original string. -/
def jsIndexOfFrom (pat : List Char) : List Char → Nat → Option Nat
  | [], i => if pat.isPrefixOf [] then some i else none
  | c :: rest, i =>
      if pat.isPrefixOf (c :: rest) then some i else jsIndexOfFrom pat rest (i + 1)

/-- Embedding of `s.indexOf(pat)`; `none` stands for the JavaScript `-1`. -/
def jsIndexOf (s pat : List Char) : Option Nat := jsIndexOfFrom pat s 0

/-- Whether `pat` occurs as a contiguous substring of `s`
(JavaScript `s.indexOf(pat) !== -1`). -/
def hasSub (s pat : List Char) : Bool := (jsIndexOf s pat).isSome

/-- Embedding of `s.slice(b, e)` for non-negative indices. -/
def jsSlice (s : List Char) (b e : Nat) : List Char := (s.drop b).take (e - b)

/-- Embedding of `s.slice(b)` for a non-negative index. -/
def jsSliceFrom (s : List Char) (b : Nat) : List Char := s.drop b

/-- Embedding of `s.split(sep)[0]`: the segment before the first separator. -/
def jsSplitHead (s : List Char) (sep : Char) : List Char :=
  s.takeWhile (fun c => c != sep)

/-- The whitespace characters stripped by `String.prototype.trim`
(ECMAScript WhiteSpace and LineTerminator code points used in practice). -/
def isJsSpace (c : Char) : Bool :=
  c = ' ' || c = '\t' || c = '\n' || c = '\r' ||
  c = Char.ofNat 11 || c = Char.ofNat 12 || c = Char.ofNat 0xA0 ||
  c = Char.ofNat 0xFEFF || c = Char.ofNat 0x2028 || c = Char.ofNat 0x2029

/-- Embedding of `s.trim()`. -/
def jsTrim (s : List Char) : List Char :=
  ((s.dropWhile isJsSpace).reverse.dropWhile isJsSpace).reverse

/-- JavaScript truthiness of a nullable string: `null` and `""` are falsy. -/
def jsOptTruthy : Option (List Char) → Bool
  | none => false
  | some s => !s.isEmpty

/-- The delimiter `" — "` (space, em dash, space) between passenger name and
pickup in a ride-request notification body. -/
def emDashSep : List Char := [' ', '—', ' ']

/-- The delimiter `" → "` (space, rightwards arrow, space) between pickup and
dropoff in a ride-request notification body. -/
def arrowSep : List Char := [' ', '→', ' ']

/-- Result record of `parseNotificationBody`. -/
structure ParsedBody where
  name : List Char
  pickup : List Char
  dropoff : List Char
deriving DecidableEq

/-- Embedding of `parseNotificationBody` from the availability dashboard:
```
const dashIdx = body.indexOf(' — ');
const arrowIdx = body.indexOf(' → ');
if (dashIdx === -1 || arrowIdx === -1) return null;
return {
  name: body.slice(0, dashIdx),
  pickup: body.slice(dashIdx + 3, arrowIdx),
  dropoff: body.slice(arrowIdx + 3),
};
``` -/
def parseNotificationBody (body : List Char) : Option ParsedBody :=
  match jsIndexOf body emDashSep, jsIndexOf body arrowSep with
  | some dashIdx, some arrowIdx =>
      some ⟨jsSlice body 0 dashIdx,
            jsSlice body (dashIdx + 3) arrowIdx,
            jsSliceFrom body (arrowIdx + 3)⟩
  | _, _ => none

/-- The proposition that `pat` occurs as a contiguous substring of `s`. -/
def SubstringOf (pat s : List Char) : Prop := ∃ i, pat <+: s.drop i

/-- One entry of the dashboard notification log (availability dashboard):
`{ id, requestId, title, body, receivedAt }`.  `receivedAt` (a `Date`) is
embedded as an abstract timestamp. -/
structure NotificationLog where
  id : List Char
  requestId : Option (List Char)
  title : List Char
  body : List Char
  receivedAt : Nat
deriving DecidableEq

/-- The mutable client state touched by the availability dashboard listener
and `filterStaleLogs`: the notification log (`logsRef`) and the seen
request-id set (`seenRequestIdsRef`, a `Set<string>` embedded as a
duplicate-free-by-construction list). -/
structure DashState where
  logs : List NotificationLog
  seen : List (List Char)
deriving DecidableEq

/-- Outcome of the `/api/request-status` round trip performed by
`filterStaleLogs`: the stored cookie was falsy, the response was not ok, the
fetch threw, or a response with a `pendingIds` array was received. -/
inductive StatusFetch where
  | noCookie
  | notOk
  | networkError
  | response (pendingIds : List (List Char))

/-- The predicate of the final filter in `filterStaleLogs`:
`(l) => !l.requestId || pendingSet.has(l.requestId)` — note that a `null`
or empty `requestId` is falsy, so such entries are always kept. -/
def keepLog (pendingIds : List (List Char)) (l : NotificationLog) : Bool :=
  match l.requestId with
  | none => true
  | some r => r.isEmpty || pendingIds.contains r

/-- Embedding of `filterStaleLogs`: reads the current logs, collects the
non-null request ids, returns early when there are none (or when the cookie
is falsy, the response is not ok, or the fetch throws), and otherwise prunes
the seen set and the log against the reported `pendingIds`. -/
def filterStaleLogs (st : DashState) (f : StatusFetch) : DashState :=
  let requestIds := st.logs.filterMap (fun l => l.requestId)
  if requestIds.isEmpty then st
  else
    match f with
    | .response pendingIds =>
        { logs := st.logs.filter (keepLog pendingIds),
          seen := st.seen.filter (fun r => pendingIds.contains r) }
    | _ => st

/-- An incoming push notification as seen by the foreground listener:
`request.identifier`, `request.content.data?.requestId` (absent data or
field embeds to `none`, matching the `?? null` in the code),
`request.content.title` and `request.content.body` (nullable). -/
structure PushNotification where
  identifier : List Char
  data_requestId : Option (List Char)
  title : Option (List Char)
  body : Option (List Char)
deriving DecidableEq

/-- Default title used when `content.title` is nullish. -/
def defaultTitle : List Char := "Ride Request".toList

/-- The log entry built by the foreground listener for a notification. -/
def mkLogEntry (n : PushNotification) (now : Nat) : NotificationLog :=
  { id := n.identifier,
    requestId := n.data_requestId,
    title := n.title.getD defaultTitle,
    body := n.body.getD [],
    receivedAt := now }

/-- Embedding of the availability dashboard foreground listener
(`addNotificationReceivedListener` callback): skip when the request id is
truthy and already seen, otherwise record a truthy request id as seen and
prepend the new entry to the log, keeping at most the first 19 old entries
(`prev.slice(0, 19)`). -/
def receiveNotification (st : DashState) (n : PushNotification) (now : Nat) :
    DashState :=
  let requestId := n.data_requestId
  if jsOptTruthy requestId && st.seen.contains (requestId.getD []) then st
  else
    { logs := mkLogEntry n now :: st.logs.take 19,
      seen := if jsOptTruthy requestId then requestId.getD [] :: st.seen
              else st.seen }

/-- One entry of the simple dashboard log (`dashboard.tsx`), which has no
`requestId` field. -/
structure SimpleLog where
  id : List Char
  title : List Char
  body : List Char
  receivedAt : Nat
deriving DecidableEq

/-- The log entry built by the simple dashboard listener. -/
def mkSimpleEntry (n : PushNotification) (now : Nat) : SimpleLog :=
  { id := n.identifier,
    title := n.title.getD defaultTitle,
    body := n.body.getD [],
    receivedAt := now }

/-- Embedding of the simple dashboard foreground listener (`dashboard.tsx`):
unconditionally prepend the entry, keeping at most the first 19 old ones. -/
def receiveNotificationSimple (logs : List SimpleLog) (n : PushNotification)
    (now : Nat) : List SimpleLog :=
  mkSimpleEntry n now :: logs.take 19

/-- Local key-value storage (`getItem`/`setItem`/`deleteItem` from
`@/utils/storage`), embedded as a partial map from keys to values. -/
def Storage : Type := List Char → Option (List Char)

/-- Embedding of `setItem`. -/
def setItem (st : Storage) (k v : List Char) : Storage :=
  fun k2 => if k2 = k then some v else st k2

/-- Embedding of `deleteItem`. -/
def deleteItem (st : Storage) (k : List Char) : Storage :=
  fun k2 => if k2 = k then none else st k2

/-- Embedding of `getItem`. -/
def getItem (st : Storage) (k : List Char) : Option (List Char) := st k

/-- The storage key `"session-cookie"`. -/
def sessionCookieKey : List Char := "session-cookie".toList

/-- The required leading text `"session-cookie="` of a well-formed cookie. -/
def sessionTag : List Char := "session-cookie=".toList

/-- The storage key `"driver-available"`. -/
def driverAvailableKey : List Char := "driver-available".toList

/-- The dashboard route `"/dashboard"`. -/
def dashboardRoute : List Char := "/dashboard".toList

/-- The login route `"/"`. -/
def rootRoute : List Char := "/".toList

/-- The Cookie header an authenticated call sends, as read back from storage
(the pattern of `filterStaleLogs`, `setupNotifications`, the push-token
calls and `handleLogout`): read `session-cookie`; a falsy value means the
call is not made, otherwise the value is sent as the Cookie header. -/
def requestCookieHeader (st : Storage) : Option (List Char) :=
  match getItem st sessionCookieKey with
  | none => none
  | some c => if c.isEmpty then none else some c

/-- Outcome of the `/api/mobile-login` round trip: the fetch (or the JSON
parse of its reply) threw, or a response arrived with its `ok` flag and the
optional `error` and `cookie` fields of its JSON body. -/
inductive LoginOutcome where
  | networkError
  | response (ok : Bool) (errorMsg : Option (List Char))
      (cookieField : Option (List Char))

/-- Observable result of one `handleLogin` run: the alert shown (if any),
the key/value pair written to storage (if any), and the route navigated to
(if any). -/
structure LoginResult where
  alertShown : Option (List Char)
  stored : Option (List Char × List Char)
  navigatedTo : Option (List Char)
deriving DecidableEq

/-- Embedding of `handleLogin` from the login screen: validate that the
trimmed email and the password are nonempty, send the request, and on an ok
response take the first `;`-delimited segment of `data.cookie`, require it
to start with `"session-cookie="`, store it under `"session-cookie"` and
navigate to the dashboard; every other path shows an alert and does
nothing else. -/
def handleLogin (email password : List Char) (o : LoginOutcome) : LoginResult :=
  if (jsTrim email).isEmpty || password.isEmpty then
    { alertShown := some ("Email and password are required.".toList),
      stored := none, navigatedTo := none }
  else
    match o with
    | .networkError =>
        { alertShown := some ("Could not reach the server. Check your connection.".toList),
          stored := none, navigatedTo := none }
    | .response ok errorMsg cookieField =>
        if !ok then
          { alertShown := some (errorMsg.getD ("Invalid credentials.".toList)),
            stored := none, navigatedTo := none }
        else
          let rawCookie := cookieField.getD []
          let cookieValue := jsSplitHead rawCookie ';'
          if !(sessionTag.isPrefixOf cookieValue) then
            { alertShown := some ("Unexpected session format. Please try again.".toList),
              stored := none, navigatedTo := none }
          else
            { alertShown := none,
              stored := some (sessionCookieKey, cookieValue),
              navigatedTo := some dashboardRoute }

/-- The login attempt failures enumerated by the spec: a thrown network
error, a non-ok response, or an ok response whose cookie field's first
`;`-delimited segment does not start with `"session-cookie="`. -/
def LoginAttemptFails (o : LoginOutcome) : Prop :=
  o = .networkError
  ∨ (∃ e c, o = .response false e c)
  ∨ (∃ e c, o = .response true e c ∧
      sessionTag.isPrefixOf (jsSplitHead (c.getD []) ';') = false)

/-- Outcome of the push-token deregistration fetch issued by logout (its
rejection is swallowed by `.catch(() => {})`). -/
inductive PushCallOutcome where
  | success
  | networkFailure

/-- Observable result of one `handleLogout` run. -/
structure LogoutResult where
  storage : Storage
  route : Option (List Char)
  deregisterAttempted : Bool

/-- Embedding of `handleLogout` from the availability dashboard: attempt the
DELETE only when both the stored cookie and the push token are truthy, then
(in the `finally` block, for every outcome) delete `"session-cookie"` and
`"driver-available"` and navigate to `"/"`. -/
def handleLogoutAvail (st : Storage) (pushToken : Option (List Char))
    (_o : PushCallOutcome) : LogoutResult :=
  { storage := deleteItem (deleteItem st sessionCookieKey) driverAvailableKey,
    route := some rootRoute,
    deregisterAttempted :=
      jsOptTruthy (getItem st sessionCookieKey) && jsOptTruthy pushToken }

/-- Embedding of `handleLogout` from the simple dashboard (`dashboard.tsx`):
same shape, but only `"session-cookie"` is deleted. -/
def handleLogoutSimple (st : Storage) (pushToken : Option (List Char))
    (_o : PushCallOutcome) : LogoutResult :=
  { storage := deleteItem st sessionCookieKey,
    route := some rootRoute,
    deregisterAttempted :=
      jsOptTruthy (getItem st sessionCookieKey) && jsOptTruthy pushToken }

/-- Embedding of the deep-link handling in the root layout: given the
(optional) string field `url` of the tapped notification's content data,
return the URL passed to `Linking.openURL`, or `none` when no URL is opened
(`if (url) Linking.openURL(url)` — absent and empty are both falsy). -/
def handleNotificationTap (data_url : Option (List Char)) : Option (List Char) :=
  match data_url with
  | none => none
  | some u => if u.isEmpty then none else some u

theorem jsIndexOfFrom_eq_none_iff (pat : List Char) :
    ∀ (s : List Char) (base : Nat),
      jsIndexOfFrom pat s base = none ↔ ∀ j, ¬ pat <+: s.drop j := by
  intro s
  induction s with
  | nil =>
      intro base
      simp only [jsIndexOfFrom, List.drop_nil]
      by_cases h : pat.isPrefixOf ([] : List Char)
      · rw [if_pos h]
        constructor
        · intro hc; exact absurd hc (by simp)
        · intro hall
          exact absurd (List.isPrefixOf_iff_prefix.mp h) (hall 0)
      · rw [if_neg h]
        constructor
        · intro _ j hc
          exact h (List.isPrefixOf_iff_prefix.mpr hc)
        · intro _; rfl
  | cons c rest ih =>
      intro base
      simp only [jsIndexOfFrom]
      by_cases h : pat.isPrefixOf (c :: rest)
      · rw [if_pos h]
        constructor
        · intro hc; exact absurd hc (by simp)
        · intro hall
          exact absurd (List.isPrefixOf_iff_prefix.mp h) (by simpa using hall 0)
      · rw [if_neg h]
        rw [ih (base + 1)]
        constructor
        · intro hall j
          cases j with
          | zero =>
              intro hc
              exact h (List.isPrefixOf_iff_prefix.mpr (by simpa using hc))
          | succ j' =>
              simpa using hall j'
        · intro hall j
          simpa using hall (j + 1)

theorem jsIndexOf_eq_none_iff (s pat : List Char) :
    jsIndexOf s pat = none ↔ ¬ SubstringOf pat s := by
  unfold jsIndexOf SubstringOf
  rw [jsIndexOfFrom_eq_none_iff]
  push_neg
  rfl

theorem isSome_false_iff_none (o : Option Nat) : o.isSome = false ↔ o = none := by
  cases o <;> simp

theorem hasSub_eq_false_iff (s pat : List Char) :
    hasSub s pat = false ↔ ∀ j, ¬ pat <+: s.drop j := by
  unfold hasSub
  rw [isSome_false_iff_none, jsIndexOf_eq_none_iff]
  unfold SubstringOf
  push_neg
  rfl

theorem jsIndexOfFrom_eq_some (pat : List Char) :
    ∀ (s : List Char) (i base : Nat),
      pat <+: s.drop i → (∀ j < i, ¬ pat <+: s.drop j) →
      jsIndexOfFrom pat s base = some (base + i) := by
  intro s
  induction s with
  | nil =>
      intro i base hp hmin
      cases i with
      | zero =>
          simp only [List.drop_nil] at hp
          simp [jsIndexOfFrom, List.isPrefixOf_iff_prefix, hp]
      | succ i' =>
          exact absurd (show pat <+: ([] : List Char).drop 0 by simpa using hp)
            (hmin 0 (Nat.succ_pos i'))
  | cons c rest ih =>
      intro i base hp hmin
      cases i with
      | zero =>
          simp only [List.drop_zero] at hp
          simp [jsIndexOfFrom, List.isPrefixOf_iff_prefix, hp]
      | succ i' =>
          have h0 : ¬ pat.isPrefixOf (c :: rest) = true := by
            intro hc
            exact hmin 0 (Nat.succ_pos i')
              (by simpa using List.isPrefixOf_iff_prefix.mp hc)
          have hrec := ih i' (base + 1) (by simpa using hp)
            (fun j hj => by simpa using hmin (j + 1) (Nat.succ_lt_succ hj))
          simp only [jsIndexOfFrom]
          rw [if_neg h0, hrec]
          congr 1
          omega

theorem jsIndexOf_eq_some (s pat : List Char) (i : Nat)
    (hp : pat <+: s.drop i) (hmin : ∀ j < i, ¬ pat <+: s.drop j) :
    jsIndexOf s pat = some i := by
  unfold jsIndexOf
  simpa using jsIndexOfFrom_eq_some pat s i 0 hp hmin

theorem prefix_take_of_le {pat t : List Char} (h : pat <+: t) (n : Nat)
    (hn : pat.length ≤ n) : pat <+: t.take n := by
  rw [List.prefix_iff_eq_take] at h ⊢
  rw [List.take_take, Nat.min_eq_left hn]
  exact h

theorem prefix_drop_take {pat l : List Char} {j m : Nat}
    (h : pat <+: l.drop j) (hm : j + pat.length ≤ m) :
    pat <+: (l.take m).drop j := by
  rw [List.drop_take]
  exact prefix_take_of_le h (m - j) (by omega)

theorem not_prefix_drop_of_hasSub_take {s pat : List Char} {m : Nat}
    (h : hasSub (s.take m) pat = false) (j : Nat) (hj : j + pat.length ≤ m) :
    ¬ pat <+: s.drop j := by
  intro hp
  exact (hasSub_eq_false_iff (s.take m) pat).mp h j (prefix_drop_take hp hj)

theorem substringOf_of_jsIndexOf_eq_some {s pat : List Char} {i : Nat}
    (h : jsIndexOf s pat = some i) : SubstringOf pat s := by
  by_contra hc
  have hn := (jsIndexOf_eq_none_iff s pat).mpr hc
  rw [h] at hn
  exact Option.noConfusion hn

/-- C3: `parseNotificationBody` is total (its Lean embedding is a function
into `Option ParsedBody`, so every input yields a parsed triple or `none`),
and it returns `none` exactly when the input does not contain the substring
`" — "` or does not contain the substring `" → "`. -/
theorem c3_parse_none_iff_missing_delimiter (body : List Char) :
    parseNotificationBody body = none ↔
      (¬ SubstringOf emDashSep body ∨ ¬ SubstringOf arrowSep body) := by
  rcases h1 : jsIndexOf body emDashSep with _ | d <;>
    rcases h2 : jsIndexOf body arrowSep with _ | a <;>
      simp only [parseNotificationBody, h1, h2]
  · exact iff_of_true trivial (Or.inl ((jsIndexOf_eq_none_iff body emDashSep).mp h1))
  · exact iff_of_true trivial (Or.inl ((jsIndexOf_eq_none_iff body emDashSep).mp h1))
  · exact iff_of_true trivial (Or.inr ((jsIndexOf_eq_none_iff body arrowSep).mp h2))
  · refine iff_of_false (by simp) ?_
    push_neg
    exact ⟨substringOf_of_jsIndexOf_eq_some h1, substringOf_of_jsIndexOf_eq_some h2⟩

theorem contains_eq_true_iff_mem (l : List (List Char)) (a : List Char) :
    l.contains a = true ↔ a ∈ l := by
  simp [List.contains, List.elem_iff]

theorem keepLog_eq_spec (P : List (List Char)) (l : NotificationLog) :
    keepLog P l
      = decide (l.requestId = none ∨ l.requestId = some [] ∨
          ∃ r ∈ P, l.requestId = some r) := by
  cases hr : l.requestId with
  | none => simp [keepLog, hr]
  | some r =>
      simp only [keepLog, hr]
      by_cases he : r = []
      · subst he; simp
      · have hie : r.isEmpty = false := by
          cases r
          · exact absurd rfl he
          · rfl
        rw [hie]
        by_cases hm : r ∈ P
        · rw [(contains_eq_true_iff_mem P r).mpr hm]
          simp [he, hm]
        · have hc : P.contains r = false := by
            cases hcc : P.contains r
            · rfl
            · exact absurd ((contains_eq_true_iff_mem P r).mp hcc) hm
          rw [hc]
          simp [he, hm]

/-- C2 (amended): on a received response with pending ids `P`, the new log
is the previous log restricted, in order, to entries whose request id is
null, empty, or a member of `P`; the result is a sublist of the previous
log.  (The code keeps an empty request id unconditionally because the
filter predicate tests JavaScript truthiness, not only null.) -/
theorem c2_filter_pending_amended (st : DashState) (P : List (List Char)) :
    (filterStaleLogs st (.response P)).logs
      = st.logs.filter
          (fun l => decide (l.requestId = none ∨ l.requestId = some [] ∨
            ∃ r ∈ P, l.requestId = some r))
    ∧ (filterStaleLogs st (.response P)).logs.Sublist st.logs := by
  have hfilter : (filterStaleLogs st (.response P)).logs
      = st.logs.filter
          (fun l => decide (l.requestId = none ∨ l.requestId = some [] ∨
            ∃ r ∈ P, l.requestId = some r)) := by
    unfold filterStaleLogs
    by_cases hreq : (st.logs.filterMap (fun l => l.requestId)).isEmpty
    · rw [if_pos hreq]
      have hall : ∀ l ∈ st.logs, l.requestId = none :=
        List.filterMap_eq_nil_iff.mp (List.isEmpty_iff.mp hreq)
      symm
      rw [List.filter_eq_self]
      intro l hl
      simp [hall l hl]
    · rw [if_neg hreq]
      exact List.filter_congr (fun l _ => keepLog_eq_spec P l)
  exact ⟨hfilter, by rw [hfilter]; exact List.filter_sublist _⟩

/-- Concrete log entry with an empty-string request id, used to refute the
literal reading of the stale-log filtering claim. -/
def c2CexLog : NotificationLog :=
  { id := ['i'], requestId := some [], title := [], body := [], receivedAt := 0 }

/-- Concrete dashboard state for the C2 counterexample. -/
def c2CexState : DashState := { logs := [c2CexLog], seen := [] }

/-- C2 counterexample: with one logged entry whose request id is the empty
string and a response whose pending set is `{"x"}`, the code keeps the
entry (its request id is falsy), while restricting to entries whose request
id is null or a member of the pending set would drop it. -/
theorem c2_filter_pending_cex :
    (filterStaleLogs c2CexState (.response [['x']])).logs
      ≠ c2CexState.logs.filter
          (fun l => decide (l.requestId = none ∨
            ∃ r ∈ [['x']], l.requestId = some r)) := by
  decide

/-- C4: whenever the availability dashboard listener inserts a received
notification (its skip condition is false), the new entry is placed at the
front over at most the first 19 previous entries, so the log never exceeds
20 entries; the simple dashboard listener does the same unconditionally. -/
theorem c4_rolling_log_bound (st : DashState) (n : PushNotification) (now : Nat)
    (h : (jsOptTruthy n.data_requestId
            && st.seen.contains (n.data_requestId.getD [])) = false) :
    (receiveNotification st n now).logs = mkLogEntry n now :: st.logs.take 19
    ∧ (receiveNotification st n now).logs.length ≤ 20
    ∧ (∀ logs : List SimpleLog,
        receiveNotificationSimple logs n now
            = mkSimpleEntry n now :: logs.take 19
        ∧ (receiveNotificationSimple logs n now).length ≤ 20) := by
  have hlogs : (receiveNotification st n now).logs
      = mkLogEntry n now :: st.logs.take 19 := by
    unfold receiveNotification
    rw [if_neg (by rw [h]; exact Bool.false_ne_true)]
  refine ⟨hlogs, ?_, ?_⟩
  · rw [hlogs]
    simp only [List.length_cons, List.length_take]
    omega
  · intro logs
    refine ⟨rfl, ?_⟩
    simp only [receiveNotificationSimple, List.length_cons, List.length_take]
    omega

/-- Concrete state and notification exercising `c4_rolling_log_bound`. -/
def c4St : DashState := { logs := [], seen := [] }

/-- Concrete notification for the C4 witness. -/
def c4N : PushNotification :=
  { identifier := ['i'], data_requestId := none, title := none, body := none }

/-- Witness for C4 at a concrete state and notification. -/
theorem c4_rolling_log_bound_witness :
    ((jsOptTruthy c4N.data_requestId
        && c4St.seen.contains (c4N.data_requestId.getD [])) = false)
    ∧ (receiveNotification c4St c4N 0).logs
        = mkLogEntry c4N 0 :: c4St.logs.take 19 :=
  ⟨by decide, (c4_rolling_log_bound c4St c4N 0 (by decide)).1⟩

/-- C6: every failing login attempt (thrown network error, non-ok response,
or ok response whose cookie's first semicolon-delimited segment does not
start with "session-cookie=") shows an alert, writes nothing to storage and
does not navigate. -/
theorem c6_login_failure_atomic (email password : List Char) (o : LoginOutcome)
    (h : LoginAttemptFails o) :
    (handleLogin email password o).stored = none
    ∧ (handleLogin email password o).navigatedTo = none
    ∧ (handleLogin email password o).alertShown ≠ none := by
  by_cases hg : ((jsTrim email).isEmpty || password.isEmpty) = true
  · simp [handleLogin, hg]
  · rcases h with h | ⟨e, c, h⟩ | ⟨e, c, h, hpre⟩
    · subst h
      simp [handleLogin, hg]
    · subst h
      simp [handleLogin, hg]
    · subst h
      simp [handleLogin, hg, hpre]

/-- Witness for C6: a thrown network error at a concrete login attempt. -/
theorem c6_login_failure_atomic_witness :
    LoginAttemptFails .networkError
    ∧ (handleLogin ['a'] ['b'] .networkError).stored = none
    ∧ (handleLogin ['a'] ['b'] .networkError).navigatedTo = none
    ∧ (handleLogin ['a'] ['b'] .networkError).alertShown ≠ none :=
  ⟨Or.inl rfl, c6_login_failure_atomic ['a'] ['b'] .networkError (Or.inl rfl)⟩

/-- C7: for every storage state, push token and deregistration outcome,
both logout handlers delete "session-cookie" (the availability dashboard
additionally deletes "driver-available") and navigate back to "/". -/
theorem c7_logout_reaches_logged_out (st : Storage) (tok : Option (List Char))
    (o : PushCallOutcome) :
    getItem (handleLogoutAvail st tok o).storage sessionCookieKey = none
    ∧ getItem (handleLogoutAvail st tok o).storage driverAvailableKey = none
    ∧ (handleLogoutAvail st tok o).route = some rootRoute
    ∧ getItem (handleLogoutSimple st tok o).storage sessionCookieKey = none
    ∧ (handleLogoutSimple st tok o).route = some rootRoute := by
  refine ⟨?_, ?_, rfl, ?_, rfl⟩
  · show deleteItem (deleteItem st sessionCookieKey) driverAvailableKey
        sessionCookieKey = none
    unfold deleteItem
    rw [if_neg (by decide), if_pos rfl]
  · show deleteItem (deleteItem st sessionCookieKey) driverAvailableKey
        driverAvailableKey = none
    unfold deleteItem
    rw [if_pos rfl]
  · show deleteItem st sessionCookieKey sessionCookieKey = none
    unfold deleteItem
    rw [if_pos rfl]

/-- Concrete state whose seen set already holds request id "r", used to
refute the no-deduplication claim for the availability dashboard. -/
def c8CexState : DashState := { logs := [], seen := [['r']] }

/-- Concrete notification carrying the already-seen request id "r". -/
def c8CexNotif : PushNotification :=
  { identifier := ['i'], data_requestId := some ['r'], title := none,
    body := none }

/-- C8 counterexample: a foreground notification whose request id is
already in the seen set is skipped by the availability dashboard listener —
the state is unchanged and no entry is prepended. -/
theorem c8_no_dedup_cex :
    receiveNotification c8CexState c8CexNotif 0 = c8CexState
    ∧ (receiveNotification c8CexState c8CexNotif 0).logs = [] := by
  decide

/-- C8 (amended): the simple dashboard (`dashboard.tsx`) prepends a log
entry for every foreground notification regardless of request id, while the
availability dashboard skips a notification exactly when its request id is
truthy and already in the seen set. -/
theorem c8_dedup_amended (st : DashState) (logs : List SimpleLog)
    (n : PushNotification) (now : Nat) :
    receiveNotificationSimple logs n now = mkSimpleEntry n now :: logs.take 19
    ∧ ((jsOptTruthy n.data_requestId
          && st.seen.contains (n.data_requestId.getD [])) = true →
        receiveNotification st n now = st) := by
  refine ⟨rfl, ?_⟩
  intro h
  unfold receiveNotification
  rw [if_pos h]

/-- Witness for C8 (amended) at concrete inputs. -/
theorem c8_dedup_amended_witness :
    receiveNotificationSimple [] c8CexNotif 0
        = mkSimpleEntry c8CexNotif 0 :: List.take 19 []
    ∧ ((jsOptTruthy c8CexNotif.data_requestId
          && c8CexState.seen.contains (c8CexNotif.data_requestId.getD []))
        = true)
    ∧ receiveNotification c8CexState c8CexNotif 0 = c8CexState :=
  ⟨(c8_dedup_amended c8CexState [] c8CexNotif 0).1, by decide,
   (c8_dedup_amended c8CexState [] c8CexNotif 0).2 (by decide)⟩

/-- C10 counterexample: a notification response whose content data carries
the string field url equal to the empty string opens nothing (the empty
string is falsy), whereas the claim says the carried URL is opened. -/
theorem c10_deeplink_cex : ¬ handleNotificationTap (some []) = some [] := by
  decide

/-- C10 (amended): a tapped notification whose content data carries a
nonempty string field url opens exactly that URL; when the field is absent
or empty, no URL is opened. -/
theorem c10_deeplink_amended (u : List Char) :
    (u ≠ [] → handleNotificationTap (some u) = some u)
    ∧ handleNotificationTap none = none
    ∧ handleNotificationTap (some []) = none := by
  refine ⟨?_, rfl, rfl⟩
  intro hu
  unfold handleNotificationTap
  cases u with
  | nil => exact absurd rfl hu
  | cons a l => rfl

/-- Witness for C10 (amended) at a concrete nonempty URL. -/
theorem c10_deeplink_amended_witness :
    (['h'] ≠ ([] : List Char))
    ∧ handleNotificationTap (some ['h']) = some ['h'] :=
  ⟨by decide, (c10_deeplink_amended ['h']).1 (by decide)⟩

/-- C5 counterexample: an ok login response whose cookie field is "g" (its
first semicolon-delimited segment does not start with "session-cookie=")
stores nothing and does not navigate, though the HTTP response was ok. -/
theorem c5_cookie_cex :
    (handleLogin ['a'] ['b'] (.response true none (some ['g']))).stored = none
    ∧ (handleLogin ['a'] ['b']
        (.response true none (some ['g']))).navigatedTo = none := by
  decide

/-- C5 (amended): for every login attempt with nonempty trimmed email and
nonempty password whose response is ok and whose cookie field's first
semicolon-delimited segment starts with "session-cookie=", that segment is
stored under the key "session-cookie", the app navigates to the dashboard,
and a subsequent authenticated call replays the stored value in its Cookie
request header. -/
theorem c5_cookie_stored_amended (email password rawCookie : List Char)
    (st : Storage) (e : Option (List Char))
    (h1 : (jsTrim email).isEmpty = false) (h2 : password.isEmpty = false)
    (h3 : sessionTag.isPrefixOf (jsSplitHead rawCookie ';') = true) :
    (handleLogin email password (.response true e (some rawCookie))).stored
        = some (sessionCookieKey, jsSplitHead rawCookie ';')
    ∧ (handleLogin email password
        (.response true e (some rawCookie))).navigatedTo = some dashboardRoute
    ∧ requestCookieHeader
        (setItem st sessionCookieKey (jsSplitHead rawCookie ';'))
        = some (jsSplitHead rawCookie ';') := by
  have hne : (jsSplitHead rawCookie ';').isEmpty = false := by
    cases hv : jsSplitHead rawCookie ';' with
    | nil => rw [hv] at h3; exact absurd h3 (by decide)
    | cons a l => rfl
  refine ⟨?_, ?_, ?_⟩
  · simp [handleLogin, h1, h2, h3]
  · simp [handleLogin, h1, h2, h3]
  · unfold requestCookieHeader getItem setItem
    rw [if_pos rfl]
    simp [hne]

/-- Witness for C5 (amended) at a concrete attempt and storage. -/
theorem c5_cookie_stored_amended_witness :
    ((jsTrim ['a']).isEmpty = false)
    ∧ (['b'].isEmpty = false)
    ∧ (sessionTag.isPrefixOf
        (jsSplitHead ("session-cookie=x".toList) ';') = true)
    ∧ (handleLogin ['a'] ['b']
          (.response true none (some ("session-cookie=x".toList)))).stored
        = some (sessionCookieKey, jsSplitHead ("session-cookie=x".toList) ';')
    ∧ requestCookieHeader
        (setItem (fun _ => none) sessionCookieKey
          (jsSplitHead ("session-cookie=x".toList) ';'))
        = some (jsSplitHead ("session-cookie=x".toList) ';') :=
  ⟨by decide, by decide, by decide,
   (c5_cookie_stored_amended ['a'] ['b'] ("session-cookie=x".toList)
      (fun _ => none) none (by decide) (by decide) (by decide)).1,
   (c5_cookie_stored_amended ['a'] ['b'] ("session-cookie=x".toList)
      (fun _ => none) none (by decide) (by decide) (by decide)).2.2⟩

/-- C9: after `filterStaleLogs` processes a response (at least one non-null
request id was logged, so the fetch happened), every request id remaining
in the seen set is a member of the reported `pendingIds`; hence a later
notification carrying a request id the server no longer reports as pending
is logged again rather than skipped. -/
theorem c9_seen_set_invariant (st : DashState) (P : List (List Char))
    (r : List Char) (n : PushNotification) (now : Nat)
    (hreq : st.logs.filterMap (fun l => l.requestId) ≠ [])
    (hn : n.data_requestId = some r) (hP : r ∉ P) :
    (∀ x ∈ (filterStaleLogs st (.response P)).seen, x ∈ P)
    ∧ (receiveNotification (filterStaleLogs st (.response P)) n now).logs
        = mkLogEntry n now
            :: (filterStaleLogs st (.response P)).logs.take 19 := by
  have hseen : ∀ x ∈ (filterStaleLogs st (.response P)).seen, x ∈ P := by
    intro x hx
    unfold filterStaleLogs at hx
    rw [if_neg (fun hc => hreq (List.isEmpty_iff.mp hc))] at hx
    simp only [List.mem_filter] at hx
    exact (contains_eq_true_iff_mem P x).mp hx.2
  refine ⟨hseen, ?_⟩
  have hskip : (jsOptTruthy n.data_requestId
      && (filterStaleLogs st (.response P)).seen.contains
            (n.data_requestId.getD [])) = false := by
    rw [hn]
    cases hc : (filterStaleLogs st (.response P)).seen.contains
        ((some r).getD []) with
    | false => rw [Bool.and_false]
    | true =>
        have hmem : r ∈ (filterStaleLogs st (.response P)).seen :=
          (contains_eq_true_iff_mem _ _).mp (by simpa using hc)
        exact absurd (hseen r hmem) hP
  unfold receiveNotification
  rw [if_neg (by rw [hskip]; exact Bool.false_ne_true)]

/-- Concrete dashboard state for the C9 witness: one logged entry with
request id "q", which is also in the seen set. -/
def c9St : DashState :=
  { logs := [{ id := ['i'], requestId := some ['q'], title := [], body := [],
               receivedAt := 0 }],
    seen := [['q']] }

/-- Concrete follow-up notification for the C9 witness, carrying the
request id "z" which the (empty) pending set no longer reports. -/
def c9N : PushNotification :=
  { identifier := ['j'], data_requestId := some ['z'], title := none,
    body := none }

/-- Witness for C9 at a concrete state, pending set and notification. -/
theorem c9_seen_set_invariant_witness :
    (c9St.logs.filterMap (fun l => l.requestId) ≠ [])
    ∧ (c9N.data_requestId = some ['z'])
    ∧ (['z'] ∉ ([] : List (List Char)))
    ∧ (receiveNotification (filterStaleLogs c9St (.response [])) c9N 7).logs
        = mkLogEntry c9N 7
            :: (filterStaleLogs c9St (.response [])).logs.take 19 :=
  ⟨by decide, rfl, by decide,
   (c9_seen_set_invariant c9St [] ['z'] c9N 7 (by decide) rfl (by decide)).2⟩

theorem no_occurrence_in_window {s pat w : List Char} {m : Nat}
    (hw : s.take m = w) (h : hasSub w pat = false)
    (j : Nat) (hj : j + pat.length ≤ m) : ¬ pat <+: s.drop j := by
  intro hp
  have hpw := prefix_drop_take hp hj
  rw [hw] at hpw
  exact (hasSub_eq_false_iff w pat).mp h j hpw

theorem arrow_prefix_chars {a b : Char} {X : List Char}
    (h : arrowSep <+: a :: b :: X) : a = ' ' ∧ b = '→' := by
  rw [show arrowSep = ' ' :: '→' :: [' '] from rfl, List.cons_prefix_cons] at h
  obtain ⟨h1, h2⟩ := h
  rw [List.cons_prefix_cons] at h2
  exact ⟨h1.symm, h2.1.symm⟩

/-- C1 counterexample: with name "a —" (which contains neither " — " nor
" → "), pickup "p" (which contains no " → ") and dropoff "d", the assembled
body "a — — p → d" has its first " — " at index 1 rather than at the end of
the name, so parsing does not return the original fields. -/
theorem c1_parse_roundtrip_cex :
    hasSub ['a', ' ', '—'] emDashSep = false
    ∧ hasSub ['a', ' ', '—'] arrowSep = false
    ∧ hasSub ['p'] arrowSep = false
    ∧ parseNotificationBody
        (['a', ' ', '—'] ++ emDashSep ++ ['p'] ++ arrowSep ++ ['d'])
        ≠ some ⟨['a', ' ', '—'], ['p'], ['d']⟩ := by
  decide

/-- C1 (amended): the round trip holds whenever the delimiters cannot be
produced early, even across junctions: "name —" contains neither " — " nor
" → " (so name contains neither delimiter and ends with neither " —" nor
" →"), and " pickup →" does not contain " → " (so pickup does not contain
" → ", does not start with "→ ", is not "→", and does not end with " →").
Under these conditions `parseNotificationBody` applied to
name + " — " + pickup + " → " + dropoff returns exactly the three fields. -/
theorem c1_parse_roundtrip_amended (name pickup dropoff : List Char)
    (hd : hasSub (name ++ [' ', '—']) emDashSep = false)
    (ha1 : hasSub (name ++ [' ', '—']) arrowSep = false)
    (ha2 : hasSub ([' '] ++ pickup ++ [' ', '→']) arrowSep = false) :
    parseNotificationBody (name ++ emDashSep ++ pickup ++ arrowSep ++ dropoff)
      = some ⟨name, pickup, dropoff⟩ := by
  have hassoc : name ++ emDashSep ++ pickup ++ arrowSep ++ dropoff
      = name ++ (emDashSep ++ (pickup ++ (arrowSep ++ dropoff))) := by
    simp [List.append_assoc]
  have F1 : (name ++ emDashSep ++ pickup ++ arrowSep ++ dropoff).take
      (name.length + 2) = name ++ [' ', '—'] := by
    rw [hassoc, List.take_append_eq_append_take,
      List.take_of_length_le (by omega),
      show name.length + 2 - name.length = 2 from by omega]
    rfl
  have F2 : (name ++ emDashSep ++ pickup ++ arrowSep ++ dropoff).drop
      name.length = emDashSep ++ (pickup ++ (arrowSep ++ dropoff)) := by
    rw [hassoc]
    exact List.drop_left' rfl
  have F3 : (name ++ emDashSep ++ pickup ++ arrowSep ++ dropoff).drop
      (name.length + 1) = '—' :: ' ' :: (pickup ++ (arrowSep ++ dropoff)) := by
    have h := congrArg (List.drop 1) F2
    rw [List.drop_drop] at h
    exact h.trans (by rfl)
  have F4 : (name ++ emDashSep ++ pickup ++ arrowSep ++ dropoff).drop
      (name.length + 2) = ' ' :: (pickup ++ (arrowSep ++ dropoff)) := by
    have h := congrArg (List.drop 2) F2
    rw [List.drop_drop] at h
    exact h.trans (by rfl)
  have F5 : ((name ++ emDashSep ++ pickup ++ arrowSep ++ dropoff).drop
      (name.length + 2)).take (pickup.length + 3)
      = [' '] ++ pickup ++ [' ', '→'] := by
    rw [F4, show pickup.length + 3 = (pickup.length + 2) + 1 from rfl,
      List.take_succ_cons, List.take_append_eq_append_take,
      List.take_of_length_le (by omega),
      show pickup.length + 2 - pickup.length = 2 from by omega]
    rfl
  have F6 : (name ++ emDashSep ++ pickup ++ arrowSep ++ dropoff).drop
      (name.length + 3 + pickup.length) = arrowSep ++ dropoff := by
    rw [show name ++ emDashSep ++ pickup ++ arrowSep ++ dropoff
        = ((name ++ emDashSep) ++ pickup) ++ (arrowSep ++ dropoff) from by
      simp [List.append_assoc]]
    refine List.drop_left' ?_
    simp only [List.length_append, emDashSep, List.length_cons,
      List.length_nil]
  have F7 : (name ++ emDashSep ++ pickup ++ arrowSep ++ dropoff).drop
      (name.length + 3) = pickup ++ (arrowSep ++ dropoff) := by
    rw [show name ++ emDashSep ++ pickup ++ arrowSep ++ dropoff
        = (name ++ emDashSep) ++ (pickup ++ (arrowSep ++ dropoff)) from by
      simp [List.append_assoc]]
    refine List.drop_left' ?_
    simp only [List.length_append, emDashSep, List.length_cons,
      List.length_nil]
  have F8 : (name ++ emDashSep ++ pickup ++ arrowSep ++ dropoff).drop
      (name.length + 3 + pickup.length + 3) = dropoff := by
    rw [show name ++ emDashSep ++ pickup ++ arrowSep ++ dropoff
        = (((name ++ emDashSep) ++ pickup) ++ arrowSep) ++ dropoff from by
      simp [List.append_assoc]]
    refine List.drop_left' ?_
    simp only [List.length_append, emDashSep, arrowSep, List.length_cons,
      List.length_nil]
  have Hdash : jsIndexOf (name ++ emDashSep ++ pickup ++ arrowSep ++ dropoff)
      emDashSep = some name.length := by
    apply jsIndexOf_eq_some
    · rw [F2]; exact List.prefix_append _ _
    · intro j hj
      exact no_occurrence_in_window F1 hd j
        (by rw [show emDashSep.length = 3 from rfl]; omega)
  have Harrow : jsIndexOf (name ++ emDashSep ++ pickup ++ arrowSep ++ dropoff)
      arrowSep = some (name.length + 3 + pickup.length) := by
    apply jsIndexOf_eq_some
    · rw [F6]; exact List.prefix_append _ _
    · intro j hj
      rcases Nat.lt_or_ge j name.length with h1 | h1
      · exact no_occurrence_in_window F1 ha1 j
          (by rw [show arrowSep.length = 3 from rfl]; omega)
      · rcases Nat.lt_or_ge j (name.length + 2) with h2 | h2
        · rcases (by omega : j = name.length ∨ j = name.length + 1) with
            rfl | rfl
          · rw [F2]
            intro hc
            exact absurd (arrow_prefix_chars hc).2 (by decide)
          · rw [F3]
            intro hc
            exact absurd (arrow_prefix_chars hc).1 (by decide)
        · intro hc
          have hm : arrowSep <+:
              ((name ++ emDashSep ++ pickup ++ arrowSep ++ dropoff).drop
                (name.length + 2)).drop (j - (name.length + 2)) := by
            rw [List.drop_drop,
              show name.length + 2 + (j - (name.length + 2)) = j from by omega]
            exact hc
          exact no_occurrence_in_window F5 ha2 (j - (name.length + 2))
            (by rw [show arrowSep.length = 3 from rfl]; omega) hm
  have e1 : jsSlice (name ++ emDashSep ++ pickup ++ arrowSep ++ dropoff)
      0 name.length = name := by
    simp only [jsSlice, List.drop_zero, Nat.sub_zero]
    rw [hassoc]
    exact List.take_left' rfl
  have e2 : jsSlice (name ++ emDashSep ++ pickup ++ arrowSep ++ dropoff)
      (name.length + 3) (name.length + 3 + pickup.length) = pickup := by
    simp only [jsSlice]
    rw [F7, show name.length + 3 + pickup.length - (name.length + 3)
        = pickup.length from by omega]
    exact List.take_left' rfl
  have e3 : jsSliceFrom (name ++ emDashSep ++ pickup ++ arrowSep ++ dropoff)
      (name.length + 3 + pickup.length + 3) = dropoff := F8
  unfold parseNotificationBody
  rw [Hdash, Harrow]
  show (some ⟨jsSlice (name ++ emDashSep ++ pickup ++ arrowSep ++ dropoff)
              0 name.length,
            jsSlice (name ++ emDashSep ++ pickup ++ arrowSep ++ dropoff)
              (name.length + 3) (name.length + 3 + pickup.length),
            jsSliceFrom (name ++ emDashSep ++ pickup ++ arrowSep ++ dropoff)
              (name.length + 3 + pickup.length + 3)⟩ : Option ParsedBody)
      = some ⟨name, pickup, dropoff⟩
  rw [e1, e2, e3]

/-- Witness for C1 (amended) at concrete fields. -/
theorem c1_parse_roundtrip_amended_witness :
    hasSub (['A', 'l'] ++ [' ', '—']) emDashSep = false
    ∧ hasSub (['A', 'l'] ++ [' ', '—']) arrowSep = false
    ∧ hasSub ([' '] ++ ['p', 'k'] ++ [' ', '→']) arrowSep = false
    ∧ parseNotificationBody
        (['A', 'l'] ++ emDashSep ++ ['p', 'k'] ++ arrowSep ++ ['d', 'f'])
        = some ⟨['A', 'l'], ['p', 'k'], ['d', 'f']⟩ :=
  ⟨by decide, by decide, by decide,
   c1_parse_roundtrip_amended ['A', 'l'] ['p', 'k'] ['d', 'f']
     (by decide) (by decide) (by decide)⟩
